import Mathlib

/-!
Shallow embedding of the `times` Go package (mantyr/times): a timestamp
value type `Time` wrapping Go's `time.Time`, with a two-layout string
parser (`setTimeString`), re-zoning construction (`NewTime`), XML/JSON/sql
codec hooks, month-boundary day counters, and a Moscow-zone variant
(`MoscowTime`).

Modelling choices:
* A `time.Location` is modelled as a named fixed UTC offset (the package
  delegates to the platform timezone database; the zones the package and
  its tests use — UTC, fixed offsets, Europe/Moscow in 2018 — all have a
  fixed offset).  A nil `*time.Location` is `Option.none`.
* A `time.Time` (`GoTime` below) is (seconds since 0001-01-01T00:00:00 UTC,
  nanosecond part, location), matching Go's wall-second + nanosecond +
  location pointer representation.  `reflect.DeepEqual` on `time.Time`
  compares these three components (the location through the pointer), so it
  is structural equality of `GoTime`.
* Go's `time.Parse`/`time.ParseInLocation` on the two layouts used by the
  package ("2006-01-02T15:04:05" and "2006-01-02T15:04:05Z07:00") is
  modelled character by character with Go's ordering of failures: layout
  elements are matched left to right (hour/minute/second range errors fire
  inline), an implicit fractional second is accepted after the seconds,
  leftover input after the layout is the "extra text" error, and the
  month/day range checks come last.  Numeric fields are fixed-width as the
  zero-padded layouts prescribe.
* Go's mutating methods on `*Time` are state passing: each returns the new
  receiver value together with `Option Err` (`none` = nil error).
-/

namespace Times

/-- Days since 1970-01-01 of the proleptic-Gregorian date (y, m, d)
(Howard Hinnant's civil-from-days algorithm, floor division). -/
def daysFromCivil (y m d : Int) : Int :=
  let yy := if m ≤ 2 then y - 1 else y
  let era := Int.fdiv yy 400
  let yoe := yy - era * 400
  let mp := if m > 2 then m - 3 else m + 9
  let doy := Int.fdiv (153 * mp + 2) 5 + d - 1
  let doe := yoe * 365 + Int.fdiv yoe 4 - Int.fdiv yoe 100 + doy
  era * 146097 + doe - 719468

/-- Inverse of `daysFromCivil`: the (y, m, d) of a count of days since
1970-01-01. -/
def civilFromDays (z : Int) : Int × Int × Int :=
  let z2 := z + 719468
  let era := Int.fdiv z2 146097
  let doe := z2 - era * 146097
  let yoe := Int.fdiv (doe - Int.fdiv doe 1460 + Int.fdiv doe 36524 - Int.fdiv doe 146096) 365
  let y := yoe + era * 400
  let doy := doe - (365 * yoe + Int.fdiv yoe 4 - Int.fdiv yoe 100)
  let mp := Int.fdiv (5 * doy + 2) 153
  let d := doy - Int.fdiv (153 * mp + 2) 5 + 1
  let m := if mp < 10 then mp + 3 else mp - 9
  (if m ≤ 2 then y + 1 else y, m, d)

/-- Days from 0001-01-01 to 1970-01-01 in the proleptic Gregorian calendar. -/
def epochShiftDays : Int := 719162

/-- Days since 0001-01-01 of the date (y, m, d). -/
def daysSinceAD1 (y m d : Int) : Int := daysFromCivil y m d + epochShiftDays

/-- The (y, m, d) of a count of days since 0001-01-01. -/
def civilOfAbsDays (n : Int) : Int × Int × Int := civilFromDays (n - epochShiftDays)

/-- Gregorian leap year (as in Go's time.isLeap). -/
def isLeap (y : Int) : Bool := y % 4 == 0 && (y % 100 != 0 || y % 400 == 0)

/-- Length of month m of year y (as in Go's time.daysIn). -/
def daysInMonth (y m : Int) : Int :=
  if m == 2 then (if isLeap y then 29 else 28)
  else if m == 4 || m == 6 || m == 9 || m == 11 then 30
  else 31

/-- A `*time.Location`, modelled as a name plus a fixed offset east of UTC
in seconds. -/
structure Location where
  name : String
  offset : Int
deriving DecidableEq

/-- `time.UTC`. -/
def utcLoc : Location := ⟨"UTC", 0⟩

/-- The package-level `MoscowLocation` (`time.LoadLocation("Europe/Moscow")`,
offset +03:00 since 2014). -/
def moscowLocation : Location := ⟨"Europe/Moscow", 10800⟩

/-- A Go `time.Time`: seconds since 0001-01-01T00:00:00 UTC, the
nanosecond part, and the location the instant is expressed in. -/
structure GoTime where
  sec : Int
  nsec : Int
  loc : Location
deriving DecidableEq

/-- `time.Time{}`: the zero instant 0001-01-01T00:00:00 UTC. -/
def goZeroTime : GoTime := ⟨0, 0, utcLoc⟩

/-- Go's `t.In(loc)`: same instant, re-expressed in the given location. -/
def GoTime.inLoc (t : GoTime) (l : Location) : GoTime := ⟨t.sec, t.nsec, l⟩

/-- Errors produced by Go's time.Parse, distinguished the way
`setTimeString` distinguishes them (substring "extra text" or not). -/
inductive PError where
  | extraText (rest : String)
  | badFormat (what : String)
  | outOfRange (what : String)
deriving DecidableEq

/-- `strings.Contains(err.Error(), "extra text")` on a parse error. -/
def PError.hasExtraText : PError → Bool
  | .extraText _ => true
  | _ => false

/-- The error values the package returns. -/
inductive Err where
  | invalidZone
  | parseError (e : PError)
  | unsupportedType (typeName : String)
  | decodeError (msg : String)
deriving DecidableEq

/-- The numeric value of a decimal digit character. -/
def digitVal (c : Char) : Nat := c.toNat - 48

/-- Read exactly n decimal digits (a fixed-width zero-padded layout
field), most significant first, on top of the accumulator. -/
def readDigits : Nat → Nat → List Char → Option (Nat × List Char)
  | 0, acc, cs => some (acc, cs)
  | n + 1, acc, c :: cs =>
      if c.isDigit then readDigits n (acc * 10 + digitVal c) cs else none
  | _ + 1, _, [] => none

/-- Consume one expected literal layout character. -/
def expectCh (c : Char) : List Char → Option (List Char)
  | d :: cs => if d = c then some cs else none
  | [] => none

/-- Split off the longest run of leading decimal digits. -/
def takeDigits : List Char → List Char × List Char
  | [] => ([], [])
  | c :: cs =>
      if c.isDigit then
        let p := takeDigits cs
        (c :: p.1, p.2)
      else ([], c :: cs)

/-- Nanoseconds denoted by a fractional-second digit run (at most nine
digits significant, scaled to nine places, as in Go's parseNanoseconds). -/
def nsecOfDigits (ds : List Char) : Nat :=
  let ds9 := ds.take 9
  (ds9.foldl (fun a c => a * 10 + digitVal c) 0) * 10 ^ (9 - ds9.length)

/-- The date/time fields matched by the layout "2006-01-02T15:04:05"
(possibly followed by an implicit fractional second). -/
structure DateFields where
  year : Nat
  month : Nat
  day : Nat
  hour : Nat
  minute : Nat
  second : Nat
  nsec : Nat
deriving DecidableEq

/-- Lift an element-match failure into Go's "cannot parse" error. -/
def liftP {α : Type} (o : Option α) : Except PError α :=
  match o with
  | some a => .ok a
  | none => .error (.badFormat "cannot parse")

/-- Match the layout "2006-01-02T15:04:05" plus Go's implicit fractional
second against a prefix of the input, with Go's inline hour/minute/second
range errors, returning the fields and the unconsumed rest. -/
def parseClock (cs : List Char) : Except PError (DateFields × List Char) := do
  let (y, cs) ← liftP (readDigits 4 0 cs)
  let cs ← liftP (expectCh '-' cs)
  let (mo, cs) ← liftP (readDigits 2 0 cs)
  let cs ← liftP (expectCh '-' cs)
  let (d, cs) ← liftP (readDigits 2 0 cs)
  let cs ← liftP (expectCh 'T' cs)
  let (h, cs) ← liftP (readDigits 2 0 cs)
  if 24 ≤ h then throw (.outOfRange "hour")
  let cs ← liftP (expectCh ':' cs)
  let (mi, cs) ← liftP (readDigits 2 0 cs)
  if 60 ≤ mi then throw (.outOfRange "minute")
  let cs ← liftP (expectCh ':' cs)
  let (s, cs) ← liftP (readDigits 2 0 cs)
  if 60 ≤ s then throw (.outOfRange "second")
  match cs with
  | '.' :: c :: rest =>
      if c.isDigit then
        let p := takeDigits (c :: rest)
        pure (⟨y, mo, d, h, mi, s, nsecOfDigits p.1⟩, p.2)
      else
        pure (⟨y, mo, d, h, mi, s, 0⟩, '.' :: c :: rest)
  | other => pure (⟨y, mo, d, h, mi, s, 0⟩, other)

/-- Go's post-layout month and day-of-month range validation. -/
def validateDate (f : DateFields) : Except PError Unit := do
  if f.month < 1 || 12 < f.month then throw (.outOfRange "month")
  if (f.day : Int) < 1 || daysInMonth f.year f.month < (f.day : Int) then
    throw (.outOfRange "day")

/-- `time.ParseInLocation("2006-01-02T15:04:05", s, loc)` up to the zone
application: the matched fields, or the error (leftover input after the
layout is the "extra text" error, checked before the month/day ranges). -/
def parseNaiveFields (s : String) : Except PError DateFields := do
  let (f, rest) ← parseClock s.data
  if rest ≠ [] then throw (.extraText (String.mk rest))
  validateDate f
  pure f

/-- Match the layout chunk "Z07:00": the letter Z, or a signed hh:mm
offset; returns (offset seconds, was the Z form, rest). -/
def parseZoneOff : List Char → Except PError (Int × Bool × List Char)
  | 'Z' :: rest => .ok (0, true, rest)
  | c :: rest =>
      if c = '+' || c = '-' then
        match readDigits 2 0 rest with
        | some (hh, rest) =>
            match expectCh ':' rest with
            | some rest =>
                match readDigits 2 0 rest with
                | some (mm, rest) =>
                    let off : Int := hh * 3600 + mm * 60
                    .ok (if c = '-' then -off else off, false, rest)
                | none => .error (.badFormat "cannot parse")
            | none => .error (.badFormat "cannot parse")
        | none => .error (.badFormat "cannot parse")
      else .error (.badFormat "cannot parse")
  | [] => .error (.badFormat "cannot parse")

/-- `time.Parse("2006-01-02T15:04:05Z07:00", s)` up to instant
construction: the fields and the embedded offset, or the error. -/
def parseZonedFields (s : String) : Except PError (DateFields × Int × Bool) := do
  let (f, rest) ← parseClock s.data
  let (off, isZ, rest) ← parseZoneOff rest
  if rest ≠ [] then throw (.extraText (String.mk rest))
  validateDate f
  pure (f, off, isZ)

/-- The wall-clock second count (since 0001-01-01T00:00:00) denoted by
parsed date fields. -/
def fieldsWallSecs (f : DateFields) : Int :=
  daysSinceAD1 f.year f.month f.day * 86400
    + f.hour * 3600 + f.minute * 60 + f.second

/-- Interpret zone-naive fields in a location (the instant whose wall
clock in l reads the fields). -/
def fieldsToTime (f : DateFields) (l : Location) : GoTime :=
  ⟨fieldsWallSecs f - l.offset, f.nsec, l⟩

/-- The instant produced by the zone-aware parse: fields shifted by the
embedded offset; Go stores UTC for the Z form and a fixed zone otherwise. -/
def zonedToTime (f : DateFields) (off : Int) (isZ : Bool) : GoTime :=
  ⟨fieldsWallSecs f - off, f.nsec, if isZ then utcLoc else ⟨"", off⟩⟩

/-- `time.ParseInLocation("2006-01-02T15:04:05", s, l)`. -/
def parseInLocation (s : String) (l : Location) : Except PError GoTime :=
  (parseNaiveFields s).map (fun f => fieldsToTime f l)

/-- `time.Parse("2006-01-02T15:04:05Z07:00", s)`. -/
def parseZoned (s : String) : Except PError GoTime :=
  (parseZonedFields s).map (fun p => zonedToTime p.1 p.2.1 p.2.2)

/-- `(*Time).setTime(date, location)`: re-express the argument instant in
the location and overwrite the receiver; nil location is an error and
leaves the receiver untouched. -/
def GoTime.setTime (t : GoTime) (date : GoTime) (location : Option Location) :
    GoTime × Option Err :=
  match location with
  | none => (t, some .invalidZone)
  | some l => (date.inLoc l, none)

/-- `(*Time).setTimeString(data, location)`: nil location is an error; the
empty string stores the zero instant in the location; otherwise parse with
the zone-naive layout in the location, retry with the zone-aware layout
exactly when the first error contains "extra text", and on success store
the parsed instant re-expressed in the location. -/
def GoTime.setTimeString (t : GoTime) (data : String) (location : Option Location) :
    GoTime × Option Err :=
  match location with
  | none => (t, some .invalidZone)
  | some l =>
    if data = "" then (goZeroTime.inLoc l, none)
    else
      match parseInLocation data l with
      | .ok localTime => (localTime.inLoc l, none)
      | .error e =>
        if e.hasExtraText then
          match parseZoned data with
          | .ok localTime => (localTime.inLoc l, none)
          | .error e2 => (t, some (.parseError e2))
        else (t, some (.parseError e))

/-- `NewTime(t, location)`. -/
def NewTime (t : GoTime) (location : Option Location) : Except Err GoTime :=
  match location with
  | none => .error .invalidZone
  | some l => .ok (t.inLoc l)

/-- `NewTimeString(date, location)`: run `setTimeString` on a zero `Time`. -/
def NewTimeString (date : String) (location : Option Location) : Except Err GoTime :=
  let r := goZeroTime.setTimeString date location
  match r.2 with
  | some e => .error e
  | none => .ok r.1

/-- A `driver.Value` handed to `(*Time).Scan` (the dynamically typed
`interface\x7b\x7d` argument, restricted to the driver value kinds). -/
inductive SqlValue where
  | timeVal (t : GoTime)
  | strVal (s : String)
  | intVal (n : Int)
  | boolVal (b : Bool)
  | nullVal
deriving DecidableEq

/-- The Go dynamic type name of a driver value (what `%T` prints). -/
def SqlValue.typeName : SqlValue → String
  | .timeVal _ => "time.Time"
  | .strVal _ => "string"
  | .intVal _ => "int64"
  | .boolVal _ => "bool"
  | .nullVal => "<nil>"

/-- `(*Time).CustomScan(src, location)`: a native timestamp is re-zoned, a
string is parsed, anything else is the unsupported-type error. -/
def GoTime.CustomScan (t : GoTime) (src : SqlValue) (location : Option Location) :
    GoTime × Option Err :=
  match src with
  | .timeVal v => t.setTime v location
  | .strVal s => t.setTimeString s location
  | _ => (t, some (.unsupportedType src.typeName))

/-- `(*Time).Scan(src)`: `CustomScan` with `time.UTC`. -/
def GoTime.Scan (t : GoTime) (src : SqlValue) : GoTime × Option Err :=
  t.CustomScan src (some utcLoc)

/-- `(*Time).CustomUnmarshalXML`: the element's character data (already
decoded; `none` stands for a failing `DecodeElement`) is handed to
`setTimeString`. -/
def GoTime.CustomUnmarshalXML (t : GoTime) (elemText : Option String)
    (location : Option Location) : GoTime × Option Err :=
  match elemText with
  | none => (t, some (.decodeError "xml decode"))
  | some data => t.setTimeString data location

/-- `(*Time).UnmarshalXML`: `CustomUnmarshalXML` with `time.UTC`. -/
def GoTime.UnmarshalXML (t : GoTime) (elemText : Option String) : GoTime × Option Err :=
  t.CustomUnmarshalXML elemText (some utcLoc)

/-- `(*Time).CustomUnmarshalXMLAttr(attr, location)`: parse the attribute
value. -/
def GoTime.CustomUnmarshalXMLAttr (t : GoTime) (attrValue : String)
    (location : Option Location) : GoTime × Option Err :=
  t.setTimeString attrValue location

/-- `(*Time).UnmarshalXMLAttr`: `CustomUnmarshalXMLAttr` with `time.UTC`. -/
def GoTime.UnmarshalXMLAttr (t : GoTime) (attrValue : String) : GoTime × Option Err :=
  t.CustomUnmarshalXMLAttr attrValue (some utcLoc)

/-- A JSON value being unmarshalled into a string field. -/
inductive JsonValue where
  | jstr (s : String)
  | jnum (n : Int)
  | jbool (b : Bool)
  | jnull
deriving DecidableEq

/-- `(*Time).CustomUnmarshalJSON(data, location)`: the nil-location check
comes first; then the field must decode as a JSON string, which is handed
to `setTimeString`. -/
def GoTime.CustomUnmarshalJSON (t : GoTime) (data : JsonValue)
    (location : Option Location) : GoTime × Option Err :=
  match location with
  | none => (t, some .invalidZone)
  | some _ =>
    match data with
    | .jstr date => t.setTimeString date location
    | _ => (t, some (.decodeError "json: cannot unmarshal into string"))

/-- `(*Time).UnmarshalJSON`: `CustomUnmarshalJSON` with `time.UTC`. -/
def GoTime.UnmarshalJSON (t : GoTime) (data : JsonValue) : GoTime × Option Err :=
  t.CustomUnmarshalJSON data (some utcLoc)

/-- Go's `t.Add(d)` for a duration of d nanoseconds. -/
def GoTime.Add (t : GoTime) (duration : Int) : GoTime :=
  let total := t.sec * 1000000000 + t.nsec + duration
  ⟨Int.fdiv total 1000000000, Int.fmod total 1000000000, t.loc⟩

/-- Go's `t.Sub(u)` as a count of nanoseconds. -/
def GoTime.Sub (t u : GoTime) : Int :=
  (t.sec - u.sec) * 1000000000 + (t.nsec - u.nsec)

/-- The wall-clock second count of t in its own location. -/
def GoTime.wall (t : GoTime) : Int := t.sec + t.loc.offset

/-- Day-of-month read off a wall-clock second count. -/
def dayOfWall (w : Int) : Int := (civilOfAbsDays (Int.fdiv w 86400)).2.2

/-- Go's `t.Day()`. -/
def GoTime.day (t : GoTime) : Int := dayOfWall t.wall

/-- Go's `AddDate` on the wall clock: normalise the month with floor
division/modulus, rebuild from the first of the month plus the (possibly
out-of-range) day count, keeping the time of day. -/
def addDateWall (w years months days : Int) : Int :=
  let absDay := Int.fdiv w 86400
  let sod := w - absDay * 86400
  let c := civilOfAbsDays absDay
  let y := c.1 + years
  let m0 := c.2.1 + months - 1
  let y2 := y + Int.fdiv m0 12
  let m2 := Int.fmod m0 12 + 1
  let newDays := daysSinceAD1 y2 m2 1 + (c.2.2 + days - 1)
  newDays * 86400 + sod

/-- Go's `t.AddDate(years, months, days)`: computed on the wall clock in
t's location, nanoseconds and location preserved. -/
def GoTime.AddDate (t : GoTime) (years months days : Int) : GoTime :=
  ⟨addDateWall t.wall years months days - t.loc.offset, t.nsec, t.loc⟩

/-- `Time.UntilEndMonthDays`: back up to the 1st, add one month, divide
the elapsed duration by 24h truncating toward zero (Go integer division). -/
def GoTime.UntilEndMonthDays (t : GoTime) : Int :=
  let day := t.day
  let e := (t.AddDate 0 0 (-(day - 1))).AddDate 0 1 0
  let diff := e.Sub t
  Int.tdiv diff (24 * 3600 * 1000000000)

/-- `Time.UntilEndNextMonthDays`: same with two months. -/
def GoTime.UntilEndNextMonthDays (t : GoTime) : Int :=
  let day := t.day
  let e := (t.AddDate 0 0 (-(day - 1))).AddDate 0 2 0
  let diff := e.Sub t
  Int.tdiv diff (24 * 3600 * 1000000000)

/-- Two-digit zero-padded decimal. -/
def pad2 (n : Nat) : String :=
  String.mk [Char.ofNat (48 + n / 10 % 10), Char.ofNat (48 + n % 10)]

/-- Four-digit zero-padded decimal. -/
def pad4 (n : Nat) : String :=
  String.mk [Char.ofNat (48 + n / 1000 % 10), Char.ofNat (48 + n / 100 % 10),
             Char.ofNat (48 + n / 10 % 10), Char.ofNat (48 + n % 10)]

/-- The "Z07:00" layout chunk on output: "Z" for offset zero, else a
signed hh:mm offset. -/
def offsetStr (off : Int) : String :=
  if off = 0 then "Z"
  else (if off < 0 then "-" else "+")
    ++ pad2 (off.natAbs / 3600) ++ ":" ++ pad2 (off.natAbs % 3600 / 60)

/-- Interpret a Go layout string over precomputed wall-clock fields: the
reference chunks 2006, 01, 02, 15, 04, 05, Z07:00 and MST are substituted,
every other character is literal (the layouts this package uses contain
only these chunks). -/
def runLayout (y mo d h mi s : Nat) (zname : String) (off : Int) :
    List Char → String
  | [] => ""
  | '2' :: '0' :: '0' :: '6' :: rest => pad4 y ++ runLayout y mo d h mi s zname off rest
  | '0' :: '1' :: rest => pad2 mo ++ runLayout y mo d h mi s zname off rest
  | '0' :: '2' :: rest => pad2 d ++ runLayout y mo d h mi s zname off rest
  | '1' :: '5' :: rest => pad2 h ++ runLayout y mo d h mi s zname off rest
  | '0' :: '4' :: rest => pad2 mi ++ runLayout y mo d h mi s zname off rest
  | '0' :: '5' :: rest => pad2 s ++ runLayout y mo d h mi s zname off rest
  | 'Z' :: '0' :: '7' :: ':' :: '0' :: '0' :: rest =>
      offsetStr off ++ runLayout y mo d h mi s zname off rest
  | 'M' :: 'S' :: 'T' :: rest => zname ++ runLayout y mo d h mi s zname off rest
  | c :: rest => String.mk [c] ++ runLayout y mo d h mi s zname off rest

/-- Go's `t.Format(layout)`: fields are read off the wall clock in t's
location (fractional seconds are dropped — the layouts used have no
fractional chunk). -/
def GoTime.Format (t : GoTime) (layout : String) : String :=
  let w := t.wall
  let absDay := Int.fdiv w 86400
  let sod := (w - absDay * 86400).toNat
  let c := civilOfAbsDays absDay
  runLayout c.1.toNat c.2.1.toNat c.2.2.toNat
    (sod / 3600) (sod % 3600 / 60) (sod % 60) t.loc.name t.loc.offset layout.data

/-- The canonical wire layout used by every default marshal hook. -/
def canonicalLayout : String := "2006-01-02T15:04:05Z07:00"

/-- `Time.CustomMarshalXML`: nil output zone is an error; otherwise the
element text is the instant re-expressed in the zone and formatted. -/
def GoTime.CustomMarshalXML (t : GoTime) (location : Option Location)
    (format : String) : Except Err String :=
  match location with
  | none => .error .invalidZone
  | some l => .ok ((t.inLoc l).Format format)

/-- `Time.MarshalXML`: UTC and the canonical layout. -/
def GoTime.MarshalXML (t : GoTime) : Except Err String :=
  t.CustomMarshalXML (some utcLoc) "2006-01-02T15:04:05Z07:00"

/-- An `xml.Attr`. -/
structure XmlAttr where
  name : String
  value : String
deriving DecidableEq

/-- `Time.CustomMarshalXMLAttr`. -/
def GoTime.CustomMarshalXMLAttr (t : GoTime) (name : String)
    (location : Option Location) (format : String) : Except Err XmlAttr :=
  match location with
  | none => .error .invalidZone
  | some l => .ok ⟨name, (t.inLoc l).Format format⟩

/-- `Time.MarshalXMLAttr`: UTC and the canonical layout. -/
def GoTime.MarshalXMLAttr (t : GoTime) (name : String) : Except Err XmlAttr :=
  t.CustomMarshalXMLAttr name (some utcLoc) "2006-01-02T15:04:05Z07:00"

/-- `json.Marshal` of a timestamp string (no escaping is ever needed). -/
def jsonQuote (s : String) : String := "\"" ++ s ++ "\""

/-- `Time.CustomMarshalJSON`. -/
def GoTime.CustomMarshalJSON (t : GoTime) (location : Option Location)
    (format : String) : Except Err String :=
  match location with
  | none => .error .invalidZone
  | some l => .ok (jsonQuote ((t.inLoc l).Format format))

/-- `Time.MarshalJSON`: UTC and the canonical layout. -/
def GoTime.MarshalJSON (t : GoTime) : Except Err String :=
  t.CustomMarshalJSON (some utcLoc) "2006-01-02T15:04:05Z07:00"

/-- `Time.Equal`: `reflect.DeepEqual` of the two values — structural
equality of instant and stored location. -/
def GoTime.Equal (t y : GoTime) : Bool := decide (t = y)

/-- `Time.DeepEqual`: both sides re-expressed in UTC first, so only the
physical instant is compared. -/
def GoTime.DeepEqual (t y : GoTime) : Bool :=
  decide (t.inLoc utcLoc = y.inLoc utcLoc)

/-- `Time.EqualTime`: `Equal` against a native instant. -/
def GoTime.EqualTime (t y : GoTime) : Bool := t.Equal y

/-- `NewMoscowTime`. -/
def NewMoscowTime (t : GoTime) : Except Err GoTime :=
  NewTime t (some moscowLocation)

/-- `NewMoscowTimeString`. -/
def NewMoscowTimeString (s : String) : Except Err GoTime :=
  NewTimeString s (some moscowLocation)

namespace MoscowTime

/-- `MoscowTime.MarshalXML`. -/
def MarshalXML (t : GoTime) : Except Err String :=
  t.CustomMarshalXML (some utcLoc) "2006-01-02T15:04:05Z07:00"

/-- `MoscowTime.MarshalXMLAttr`. -/
def MarshalXMLAttr (t : GoTime) (name : String) : Except Err XmlAttr :=
  t.CustomMarshalXMLAttr name (some utcLoc) "2006-01-02T15:04:05Z07:00"

/-- `MoscowTime.UnmarshalXML`. -/
def UnmarshalXML (t : GoTime) (elemText : Option String) : GoTime × Option Err :=
  t.CustomUnmarshalXML elemText (some moscowLocation)

/-- `MoscowTime.UnmarshalXMLAttr`. -/
def UnmarshalXMLAttr (t : GoTime) (attrValue : String) : GoTime × Option Err :=
  t.CustomUnmarshalXMLAttr attrValue (some moscowLocation)

/-- `MoscowTime.MarshalJSON`. -/
def MarshalJSON (t : GoTime) : Except Err String :=
  t.CustomMarshalJSON (some utcLoc) "2006-01-02T15:04:05Z07:00"

/-- `MoscowTime.UnmarshalJSON`. -/
def UnmarshalJSON (t : GoTime) (data : JsonValue) : GoTime × Option Err :=
  t.CustomUnmarshalJSON data (some moscowLocation)

/-- `MoscowTime.Scan`. -/
def Scan (t : GoTime) (src : SqlValue) : GoTime × Option Err :=
  t.CustomScan src (some moscowLocation)

end MoscowTime

/-! Helper lemmas shared by the claim theorems. -/

theorem fieldsToTime_wall (f : DateFields) (l : Location) :
    (fieldsToTime f l).wall = fieldsWallSecs f := by
  simp [fieldsToTime, GoTime.wall, Int.sub_add_cancel]

theorem fieldsToTime_inLoc (f : DateFields) (l : Location) :
    (fieldsToTime f l).inLoc l = fieldsToTime f l := by
  simp [fieldsToTime, GoTime.inLoc]

theorem setTimeString_ok_of_naive (t : GoTime) (s : String) (l : Location)
    (f : DateFields) (hs : s ≠ "") (h : parseNaiveFields s = .ok f) :
    t.setTimeString s (some l) = (fieldsToTime f l, none) := by
  unfold GoTime.setTimeString
  simp [hs, parseInLocation, h, Except.map, fieldsToTime_inLoc]

theorem newTimeString_ok_of_naive (s : String) (l : Location)
    (f : DateFields) (hs : s ≠ "") (h : parseNaiveFields s = .ok f) :
    NewTimeString s (some l) = .ok (fieldsToTime f l) := by
  unfold NewTimeString
  rw [setTimeString_ok_of_naive goZeroTime s l f hs h]

/-- The month-boundary counter only reads the wall clock: the stored
offset cancels out of the elapsed-duration computation. -/
theorem untilEndMonthDays_wall (t : GoTime) :
    t.UntilEndMonthDays =
      Int.tdiv ((addDateWall (addDateWall t.wall 0 0 (-(dayOfWall t.wall - 1))) 0 1 0
          - t.wall) * 1000000000) (24 * 3600 * 1000000000) := by
  simp only [GoTime.UntilEndMonthDays, GoTime.day, GoTime.AddDate, GoTime.Sub,
    GoTime.wall, Int.sub_add_cancel]
  congr 1
  ring

theorem untilEndNextMonthDays_wall (t : GoTime) :
    t.UntilEndNextMonthDays =
      Int.tdiv ((addDateWall (addDateWall t.wall 0 0 (-(dayOfWall t.wall - 1))) 0 2 0
          - t.wall) * 1000000000) (24 * 3600 * 1000000000) := by
  simp only [GoTime.UntilEndNextMonthDays, GoTime.day, GoTime.AddDate, GoTime.Sub,
    GoTime.wall, Int.sub_add_cancel]
  congr 1
  ring

/-! Claim theorems. -/

/-- C3: every zone-sensitive operation — construction from a native
instant, parsing from a string, custom scan with a native or string value,
custom JSON unmarshal, and the three custom marshal hooks — given a nil
timezone returns the invalid-zone error and never falls back to a default
zone. -/
theorem c3_nil_zone_is_error :
    (∀ t : GoTime, NewTime t none = .error .invalidZone)
    ∧ (∀ (t : GoTime) (s : String), t.setTimeString s none = (t, some .invalidZone))
    ∧ (∀ t v : GoTime, t.setTime v none = (t, some .invalidZone))
    ∧ (∀ t v : GoTime, t.CustomScan (.timeVal v) none = (t, some .invalidZone))
    ∧ (∀ (t : GoTime) (s : String),
        t.CustomScan (.strVal s) none = (t, some .invalidZone))
    ∧ (∀ (t : GoTime) (j : JsonValue),
        t.CustomUnmarshalJSON j none = (t, some .invalidZone))
    ∧ (∀ (t : GoTime) (fmt : String),
        t.CustomMarshalXML none fmt = .error .invalidZone)
    ∧ (∀ (t : GoTime) (nm fmt : String),
        t.CustomMarshalXMLAttr nm none fmt = .error .invalidZone)
    ∧ (∀ (t : GoTime) (fmt : String),
        t.CustomMarshalJSON none fmt = .error .invalidZone) := by
  exact ⟨fun _ => rfl, fun _ _ => rfl, fun _ _ => rfl, fun _ _ => rfl,
    fun _ _ => rfl, fun _ _ => rfl, fun _ _ => rfl, fun _ _ _ => rfl,
    fun _ _ => rfl⟩

/-- C4: for every non-nil target zone, parsing the empty string succeeds
and stores the zero instant 0001-01-01T00:00:00 re-expressed in the
target zone. -/
theorem c4_empty_string_is_zero_instant (t : GoTime) (z : Location) :
    t.setTimeString "" (some z) = (goZeroTime.inLoc z, none) := rfl

/-- C5: constructing from the same native instant in two zones gives
values that are DeepEqual (same physical instant, compared after
normalising both to UTC), while Equal holds exactly when the two zones
coincide (structural equality including the stored zone). -/
theorem c5_equal_vs_deepEqual (t : GoTime) (z1 z2 : Location) :
    NewTime t (some z1) = .ok (t.inLoc z1)
    ∧ NewTime t (some z2) = .ok (t.inLoc z2)
    ∧ GoTime.DeepEqual (t.inLoc z1) (t.inLoc z2) = true
    ∧ (GoTime.Equal (t.inLoc z1) (t.inLoc z2) = true ↔ z1 = z2) := by
  refine ⟨rfl, rfl, ?_, ?_⟩
  · simp [GoTime.DeepEqual, GoTime.inLoc]
  · simp [GoTime.Equal, GoTime.inLoc, GoTime.mk.injEq]

/-- C7: scan re-zones a native timestamp into the given zone, parses a
string with the two-layout parser, and fails with the unsupported-type
error on every other value kind. -/
theorem c7_scan_dispatch (t v : GoTime) (s : String) (n : Int) (b : Bool)
    (l : Option Location) :
    t.CustomScan (.timeVal v) l = t.setTime v l
    ∧ (∀ z, t.CustomScan (.timeVal v) (some z) = (v.inLoc z, none))
    ∧ t.CustomScan (.strVal s) l = t.setTimeString s l
    ∧ t.CustomScan (.intVal n) l = (t, some (.unsupportedType "int64"))
    ∧ t.CustomScan (.boolVal b) l = (t, some (.unsupportedType "bool"))
    ∧ t.CustomScan .nullVal l = (t, some (.unsupportedType "<nil>")) := by
  exact ⟨rfl, fun _ => rfl, rfl, rfl, rfl, rfl⟩

/-- C8: every hook of the Moscow variant is the base customizable hook
instantiated with a fixed zone policy — decode hooks use Europe/Moscow as
the default input zone, encode hooks use output zone UTC with the very
layout the base default hooks use, so each Moscow encode hook coincides
with the base default encode hook. -/
theorem c8_moscow_is_base_with_fixed_zones (t : GoTime) (e : Option String)
    (a : String) (j : JsonValue) (src : SqlValue) (nm : String) :
    MoscowTime.UnmarshalXML t e = t.CustomUnmarshalXML e (some moscowLocation)
    ∧ MoscowTime.UnmarshalXMLAttr t a = t.CustomUnmarshalXMLAttr a (some moscowLocation)
    ∧ MoscowTime.UnmarshalJSON t j = t.CustomUnmarshalJSON j (some moscowLocation)
    ∧ MoscowTime.Scan t src = t.CustomScan src (some moscowLocation)
    ∧ MoscowTime.MarshalXML t = t.CustomMarshalXML (some utcLoc) canonicalLayout
    ∧ MoscowTime.MarshalXMLAttr t nm = t.CustomMarshalXMLAttr nm (some utcLoc) canonicalLayout
    ∧ MoscowTime.MarshalJSON t = t.CustomMarshalJSON (some utcLoc) canonicalLayout
    ∧ MoscowTime.MarshalXML t = t.MarshalXML
    ∧ MoscowTime.MarshalXMLAttr t nm = t.MarshalXMLAttr nm
    ∧ MoscowTime.MarshalJSON t = t.MarshalJSON := by
  exact ⟨rfl, rfl, rfl, rfl, rfl, rfl, rfl, rfl, rfl, rfl⟩

/-- C1: a successful parse always stores the instant re-expressed in the
caller's target zone, never in the input's own offset; concretely, the
offset-suffixed example parsed under UTC prints 2018-01-25T11:24:28Z with
the canonical layout, and the zone-naive example parsed under UTC+3
prints 2018-01-25T13:24:28Z when re-projected to output zone UTC. -/
theorem c1_parse_stores_target_zone :
    (∀ (s : String) (l : Location) (t r : GoTime),
        t.setTimeString s (some l) = (r, none) → r.loc = l)
    ∧ (NewTimeString "2018-01-25T16:24:28+05:00" (some utcLoc)).map
        (fun u => u.Format canonicalLayout) = .ok "2018-01-25T11:24:28Z"
    ∧ (NewTimeString "2018-01-25T16:24:28" (some ⟨"UTC+3", 10800⟩)).map
        (fun u => (u.inLoc utcLoc).Format canonicalLayout)
        = .ok "2018-01-25T13:24:28Z" := by
  refine ⟨?_, by rfl, by rfl⟩
  intro s l t r h
  simp only [GoTime.setTimeString] at h
  by_cases hs : s = ""
  · rw [if_pos hs] at h
    injection h with h1 _
    rw [← h1]; rfl
  · rw [if_neg hs] at h
    cases hp : parseInLocation s l with
    | ok v =>
      simp only [hp] at h
      injection h with h1 _
      rw [← h1]; rfl
    | error e =>
      simp only [hp] at h
      by_cases he : e.hasExtraText = true
      · rw [if_pos he] at h
        cases hz : parseZoned s with
        | ok u =>
          simp only [hz] at h
          injection h with h1 _
          rw [← h1]; rfl
        | error e2 =>
          simp only [hz] at h
          injection h with _ h2
          exact Option.noConfusion h2
      · rw [if_neg he] at h
        injection h with _ h2
        exact Option.noConfusion h2

/-- C1 witness: the universal part applied at a concrete zone-naive input
parsed under Europe/Moscow. -/
theorem c1_parse_stores_target_zone_witness :
    ((goZeroTime.setTimeString "2018-01-25T16:24:28" (some moscowLocation)).1).loc
      = moscowLocation :=
  c1_parse_stores_target_zone.1 "2018-01-25T16:24:28" moscowLocation goZeroTime
    ((goZeroTime.setTimeString "2018-01-25T16:24:28" (some moscowLocation)).1)
    (by rfl)

/-- C2: on a non-empty input the zone-naive layout is tried first in the
target zone; the zone-aware layout is tried exactly when the first
attempt failed with the extra-trailing-text error, any other first-attempt
error is returned as is, and a failure of the second attempt is returned
with no further fallback. -/
theorem c2_layout_fallback (s : String) (l : Location) (t : GoTime) (hs : s ≠ "") :
    (∀ f, parseNaiveFields s = .ok f →
        t.setTimeString s (some l) = (fieldsToTime f l, none))
    ∧ (∀ e, parseNaiveFields s = .error e → e.hasExtraText = false →
        t.setTimeString s (some l) = (t, some (.parseError e)))
    ∧ (∀ e, parseNaiveFields s = .error e → e.hasExtraText = true →
        (∀ u, parseZoned s = .ok u →
            t.setTimeString s (some l) = (u.inLoc l, none))
        ∧ (∀ e2, parseZoned s = .error e2 →
            t.setTimeString s (some l) = (t, some (.parseError e2)))) := by
  refine ⟨?_, ?_, ?_⟩
  · intro f h
    exact setTimeString_ok_of_naive t s l f hs h
  · intro e h he
    unfold GoTime.setTimeString
    simp [hs, parseInLocation, h, Except.map, he]
  · intro e h he
    constructor
    · intro u hu
      unfold GoTime.setTimeString
      simp [hs, parseInLocation, h, Except.map, he, hu]
    · intro e2 h2
      unfold GoTime.setTimeString
      simp [hs, parseInLocation, h, Except.map, he, h2]

/-- C2 witness: the four branches at concrete inputs — a clean zone-naive
parse, a non-extra-text first failure that is returned, an extra-text
first failure recovered by the zone-aware layout, and an extra-text first
failure whose second attempt also fails and is returned. -/
theorem c2_layout_fallback_witness :
    goZeroTime.setTimeString "2018-01-25T16:24:28" (some utcLoc)
        = (fieldsToTime ⟨2018, 1, 25, 16, 24, 28, 0⟩ utcLoc, none)
    ∧ goZeroTime.setTimeString "garbage!" (some utcLoc)
        = (goZeroTime, some (.parseError (.badFormat "cannot parse")))
    ∧ goZeroTime.setTimeString "2018-01-25T16:24:28+05:00" (some utcLoc)
        = ((zonedToTime ⟨2018, 1, 25, 16, 24, 28, 0⟩ 18000 false).inLoc utcLoc, none)
    ∧ goZeroTime.setTimeString "2018-01-25T16:24:28Zx" (some utcLoc)
        = (goZeroTime, some (.parseError (.extraText "x"))) := by
  refine ⟨?_, ?_, ?_, ?_⟩
  · exact (c2_layout_fallback "2018-01-25T16:24:28" utcLoc goZeroTime (by decide)).1
      ⟨2018, 1, 25, 16, 24, 28, 0⟩ (by rfl)
  · exact (c2_layout_fallback "garbage!" utcLoc goZeroTime (by decide)).2.1
      (.badFormat "cannot parse") (by rfl) (by rfl)
  · exact ((c2_layout_fallback "2018-01-25T16:24:28+05:00" utcLoc goZeroTime
      (by decide)).2.2 (.extraText "+05:00") (by rfl) (by rfl)).1
      (zonedToTime ⟨2018, 1, 25, 16, 24, 28, 0⟩ 18000 false) (by rfl)
  · exact ((c2_layout_fallback "2018-01-25T16:24:28Zx" utcLoc goZeroTime
      (by decide)).2.2 (.extraText "Zx") (by rfl) (by rfl)).2
      (.extraText "x") (by rfl)

/-- C6: the days-until-end-of-month helper — back up (day-of-month − 1)
days, add one calendar month, divide the elapsed duration from the
original instant by 24 hours truncating toward zero — returns 28 for the
value parsed from 2018-02-01T00:00:00 and for the value parsed from
2018-05-04T12:15:55, in every target zone. -/
theorem c6_until_end_month_days (z : Location) :
    (NewTimeString "2018-02-01T00:00:00" (some z)).map GoTime.UntilEndMonthDays
      = .ok 28
    ∧ (NewTimeString "2018-05-04T12:15:55" (some z)).map GoTime.UntilEndMonthDays
      = .ok 28 := by
  constructor
  · rw [newTimeString_ok_of_naive "2018-02-01T00:00:00" z
      ⟨2018, 2, 1, 0, 0, 0, 0⟩ (by decide) (by rfl)]
    simp only [Except.map]
    rw [untilEndMonthDays_wall, fieldsToTime_wall]
    rfl
  · rw [newTimeString_ok_of_naive "2018-05-04T12:15:55" z
      ⟨2018, 5, 4, 12, 15, 55, 0⟩ (by decide) (by rfl)]
    simp only [Except.map]
    rw [untilEndMonthDays_wall, fieldsToTime_wall]
    rfl

/-- C9: every mutating operation leaves the receiver untouched whenever it
returns an error — nil zone, parse failure, unsupported scan type, or a
decode failure. -/
theorem c9_atomic_on_error :
    (∀ (t d : GoTime) (l : Option Location) (e : Err),
        (t.setTime d l).2 = some e → (t.setTime d l).1 = t)
    ∧ (∀ (t : GoTime) (s : String) (l : Option Location) (e : Err),
        (t.setTimeString s l).2 = some e → (t.setTimeString s l).1 = t)
    ∧ (∀ (t : GoTime) (src : SqlValue) (l : Option Location) (e : Err),
        (t.CustomScan src l).2 = some e → (t.CustomScan src l).1 = t)
    ∧ (∀ (t : GoTime) (o : Option String) (l : Option Location) (e : Err),
        (t.CustomUnmarshalXML o l).2 = some e → (t.CustomUnmarshalXML o l).1 = t)
    ∧ (∀ (t : GoTime) (s : String) (l : Option Location) (e : Err),
        (t.CustomUnmarshalXMLAttr s l).2 = some e
          → (t.CustomUnmarshalXMLAttr s l).1 = t)
    ∧ (∀ (t : GoTime) (j : JsonValue) (l : Option Location) (e : Err),
        (t.CustomUnmarshalJSON j l).2 = some e → (t.CustomUnmarshalJSON j l).1 = t) := by
  have hstr : ∀ (t : GoTime) (s : String) (l : Option Location) (e : Err),
      (t.setTimeString s l).2 = some e → (t.setTimeString s l).1 = t := by
    intro t s l e h
    match l with
    | none => rfl
    | some z =>
      simp only [GoTime.setTimeString] at h ⊢
      by_cases hs : s = ""
      · rw [if_pos hs] at h
        exact Option.noConfusion h
      · rw [if_neg hs] at h ⊢
        cases hp : parseInLocation s z with
        | ok v =>
          simp only [hp] at h
          exact Option.noConfusion h
        | error pe =>
          simp only [hp] at h ⊢
          by_cases he : pe.hasExtraText = true
          · rw [if_pos he] at h ⊢
            cases hz : parseZoned s with
            | ok u =>
              simp only [hz] at h
              exact Option.noConfusion h
            | error e2 =>
              simp only [hz]
          · rw [if_neg he]
  refine ⟨?_, hstr, ?_, ?_, ?_, ?_⟩
  · intro t d l e h
    match l with
    | none => rfl
    | some z => exact Option.noConfusion h
  · intro t src l e h
    match src with
    | .timeVal v =>
      match l with
      | none => rfl
      | some z => exact Option.noConfusion h
    | .strVal s => exact hstr t s l e h
    | .intVal n => rfl
    | .boolVal b => rfl
    | .nullVal => rfl
  · intro t o l e h
    match o with
    | none => rfl
    | some data => exact hstr t data l e h
  · intro t s l e h
    exact hstr t s l e h
  · intro t j l e h
    match l with
    | none => rfl
    | some z =>
      match j with
      | .jstr date => exact hstr t date (some z) e h
      | .jnum n => rfl
      | .jbool b => rfl
      | .jnull => rfl

/-- C9 witness: each operation applied at a concrete failing input leaves
the receiver unchanged. -/
theorem c9_atomic_on_error_witness :
    (goZeroTime.setTime goZeroTime none).1 = goZeroTime
    ∧ (goZeroTime.setTimeString "garbage!" (some utcLoc)).1 = goZeroTime
    ∧ (goZeroTime.CustomScan (.intVal 7) (some utcLoc)).1 = goZeroTime
    ∧ (goZeroTime.CustomUnmarshalXML none (some utcLoc)).1 = goZeroTime
    ∧ (goZeroTime.CustomUnmarshalXMLAttr "bad" (some utcLoc)).1 = goZeroTime
    ∧ (goZeroTime.CustomUnmarshalJSON (.jnum 3) (some utcLoc)).1 = goZeroTime := by
  refine ⟨?_, ?_, ?_, ?_, ?_, ?_⟩
  · exact c9_atomic_on_error.1 goZeroTime goZeroTime none .invalidZone (by rfl)
  · exact c9_atomic_on_error.2.1 goZeroTime "garbage!" (some utcLoc)
      (.parseError (.badFormat "cannot parse")) (by rfl)
  · exact c9_atomic_on_error.2.2.1 goZeroTime (.intVal 7) (some utcLoc)
      (.unsupportedType "int64") (by rfl)
  · exact c9_atomic_on_error.2.2.2.1 goZeroTime none (some utcLoc)
      (.decodeError "xml decode") (by rfl)
  · exact c9_atomic_on_error.2.2.2.2.1 goZeroTime "bad" (some utcLoc)
      (.parseError (.badFormat "cannot parse")) (by rfl)
  · exact c9_atomic_on_error.2.2.2.2.2 goZeroTime (.jnum 3) (some utcLoc)
      (.decodeError "json: cannot unmarshal into string") (by rfl)

/-- C10: fractional seconds survive parsing — the values parsed from
2018-01-25T16:24:28.74 and 2018-01-25T16:24:28 under UTC differ under
structural equality (the stored nanoseconds differ), yet both format to
the same string under the whole-second canonical layout: truncation
happens only at format time. -/
theorem c10_fraction_retained :
    ∃ t1 t2 : GoTime,
      NewTimeString "2018-01-25T16:24:28.74" (some utcLoc) = .ok t1
      ∧ NewTimeString "2018-01-25T16:24:28" (some utcLoc) = .ok t2
      ∧ t1.Equal t2 = false
      ∧ t1.Format canonicalLayout = t2.Format canonicalLayout := by
  refine ⟨fieldsToTime ⟨2018, 1, 25, 16, 24, 28, 740000000⟩ utcLoc,
          fieldsToTime ⟨2018, 1, 25, 16, 24, 28, 0⟩ utcLoc, ?_, ?_, ?_, ?_⟩
  · exact newTimeString_ok_of_naive _ _ _ (by decide) (by rfl)
  · exact newTimeString_ok_of_naive _ _ _ (by decide) (by rfl)
  · decide
  · rfl

end Times
